import Mathlib

/-!
Verification development for the youlab-sync daemon (tools/youlab-sync).

The Go source is shallowly embedded: pure helpers (`isBinaryFile`,
`calculateHash` abstracted as a hash-function parameter, `shouldIgnore`)
become Lean functions; the stateful sync manager (`Manager.syncFile`,
`Manager.uploadFile`, `Manager.downloadFile`, `Manager.deleteLocalFile`,
`Manager.deleteRemoteFile`, `Manager.FullSync`, `Manager.HandleLocalChange`)
becomes explicit state passing over a `SyncState` record holding the remote
workspace, the local filesystem and the sync index, returning the list of
remote mutations (PutFile / DeleteFile calls) each operation issues.
Byte buffers are `List Nat`; timestamps are `Int`; maps are association
lists keyed by relative path.
-/

namespace YouLabSync

/-- A byte buffer; each element is the value of one byte. -/
abbrev Bytes := List Nat

/-- Char-list test that `pre` is an initial segment of `s`
(embedding of Go `strings.HasPrefix` on the underlying characters). -/
def listDropsUnder : List Char → List Char → Bool
  | [], _ => true
  | _ :: _, [] => false
  | p :: ps, c :: cs => p == c && listDropsUnder ps cs

/-- String form of the initial-segment test used by the scanner
(`strings.HasPrefix(relPath, ".youlab-sync")`). -/
def strStartsWith (s pre : String) : Bool :=
  listDropsUnder pre.toList s.toList

/-- Split a character list on a separator character; embedding of
`strings.Split(path, string(filepath.Separator))` with `/` as separator. -/
def splitOnSep (sep : Char) : List Char → List (List Char)
  | [] => [[]]
  | c :: cs =>
    if c == sep then [] :: splitOnSep sep cs
    else
      match splitOnSep sep cs with
      | [] => [[c]]
      | g :: gs => (c :: g) :: gs

/-- Shell-style glob matching, embedding Go `path/filepath.Match` restricted
to the `*`, `?` and literal syntax (none of the repository's ignore patterns
use character classes or escapes). The `fuel` argument only bounds recursion;
`fuel = |pattern| + |name| + 1` always suffices because every recursive call
shrinks the combined length. -/
def globMatchFuel : Nat → List Char → List Char → Bool
  | 0, _, _ => false
  | _ + 1, [], [] => true
  | _ + 1, [], _ :: _ => false
  | fuel + 1, '*' :: ps, ns =>
    globMatchFuel fuel ps ns ||
      (match ns with
       | [] => false
       | _ :: ns2 => globMatchFuel fuel ('*' :: ps) ns2)
  | fuel + 1, '?' :: ps, ns =>
    (match ns with
     | [] => false
     | _ :: ns2 => globMatchFuel fuel ps ns2)
  | fuel + 1, p :: ps, ns =>
    (match ns with
     | [] => false
     | c :: ns2 => p == c && globMatchFuel fuel ps ns2)

/-- Glob match on character lists with sufficient fuel. -/
def chMatch (pattern name : List Char) : Bool :=
  globMatchFuel (pattern.length + name.length + 1) pattern name

/-- Last path component; embedding of `filepath.Base` for the normal
relative paths the daemon handles. -/
def baseNameChars (path : List Char) : List Char :=
  (splitOnSep '/' path).getLastD path

/-- Embedding of `shouldIgnore` (identical in `Manager.shouldIgnore` and
`Watcher.shouldIgnore`): a path is ignored when any pattern matches any
path component or the basename. -/
def shouldIgnore (patterns : List String) (path : String) : Bool :=
  let parts := splitOnSep '/' path.toList
  patterns.any fun pattern =>
    parts.any (fun part => chMatch pattern.toList part) ||
      chMatch pattern.toList (baseNameChars path.toList)

/-- Embedding of `isBinaryFile` from watch.go: empty is not binary; a NUL
byte in the first 1024 bytes means binary; otherwise binary iff the count of
control bytes other than 9, 10, 13 in that prefix exceeds 30% of the prefix
length. The Go code compares `float64(n)/float64(len) > 0.3`; for
`len ≤ 1024` and `n ≤ len` that float comparison coincides exactly with the
rational comparison `10 * n > 3 * len` (the two rationals, when distinct,
differ by at least `1/10240`, far above double rounding error). -/
def isBinaryFile (content : Bytes) : Bool :=
  if content.length = 0 then false
  else
    let checkLen := min content.length 1024
    let checked := content.take checkLen
    if checked.any (fun b => b == 0) then true
    else
      let nonPrintable :=
        checked.countP (fun b => decide (b < 32 ∧ b ≠ 9 ∧ b ≠ 10 ∧ b ≠ 13))
      decide (10 * nonPrintable > 3 * checkLen)

/-- Content classifier written from the specification's own words (§4.2 /
claim wording): rules evaluated on the first 1024 bytes (or the whole buffer
if shorter); empty is not binary; any NUL in the prefix is binary; otherwise
binary exactly when the count of bytes `< 32` other than 9, 10, 13 divided
by the prefix length exceeds 0.3. Used only to compare against
`isBinaryFile`. -/
def specIsBinary (content : Bytes) : Bool :=
  if content.length = 0 then false
  else
    let pre := content.take 1024
    if pre.any (fun b => b == 0) then true
    else
      decide (10 * pre.countP (fun b => decide (b < 32 ∧ b ≠ 9 ∧ b ≠ 10 ∧ b ≠ 13))
                > 3 * pre.length)

/-- FileState from watch.go: the sync state of one file. -/
structure FileState where
  path : String
  hash : String
  size : Int
  modified : Int
  source : String
  syncedAt : Int
deriving Repr, DecidableEq

/-- FileMetadata from the ralph client: remote metadata for one file. -/
structure FileMetadata where
  path : String
  hash : String
  size : Int
  modified : Int
deriving Repr, DecidableEq

/-- One local file as the filesystem holds it: content bytes and mtime. -/
structure LocalFile where
  content : Bytes
  modified : Int
deriving Repr, DecidableEq

/-- One file as the remote workspace stores it: content bytes and mtime. -/
structure RemoteFile where
  content : Bytes
  modified : Int
deriving Repr, DecidableEq

/-- The `files` map of the SyncIndex, as an association list. -/
abbrev Index := List (String × FileState)

/-- The local tree as a map from relative path to file. -/
abbrev LocalFS := List (String × LocalFile)

/-- The remote workspace as a map from relative path to file. -/
abbrev RemoteFS := List (String × RemoteFile)

/-- Association-list lookup (map read). -/
def lookupA {α : Type} (l : List (String × α)) (k : String) : Option α :=
  (l.find? (fun e => e.1 == k)).map (fun e => e.2)

/-- Association-list erase (map delete). -/
def eraseA {α : Type} (l : List (String × α)) (k : String) : List (String × α) :=
  l.filter (fun e => !(e.1 == k))

/-- Association-list insert-or-replace (map write). -/
def insertA {α : Type} (l : List (String × α)) (k : String) (v : α) :
    List (String × α) :=
  (k, v) :: eraseA l k

/-- The three pieces of state the sync manager manipulates: the remote
workspace behind the ralph client, the local directory tree, and the
in-memory sync index. -/
structure SyncState where
  remote : RemoteFS
  localFS : LocalFS
  index : Index
deriving Repr, DecidableEq

/-- A remote mutation issued through the ralph client: `PutFile` or
`DeleteFile`. (`GetFile`/`ListFiles` are reads and are not recorded.) -/
inductive RemoteMutation where
  | put (path : String) (content : Bytes)
  | delete (path : String)
deriving Repr, DecidableEq

/-- Ambient parameters of one sync operation: the hash function
(SHA-256 in the source, abstracted here), the configured ignore patterns,
and the clocks (`now` stamps `synced_at`; `serverNow` is the mtime the
server assigns to stored uploads; `fsNow` is the local mtime a write gets
when the remote metadata carries a zero timestamp). -/
structure Env where
  hashFn : Bytes → String
  ignorePatterns : List String
  now : Int
  serverNow : Int
  fsNow : Int

/-- Embedding of `Manager.updateIndex`: write one FileState record. -/
def updateIndex (idx : Index) (path hash : String) (size modified : Int)
    (source : String) (now : Int) : Index :=
  insertA idx path
    { path := path, hash := hash, size := size, modified := modified,
      source := source, syncedAt := now }

/-- Embedding of `Manager.removeFromIndex`. -/
def removeFromIndex (idx : Index) (path : String) : Index :=
  eraseA idx path

/-- Embedding of `Manager.getIndexedState`. -/
def getIndexedState (idx : Index) (path : String) : Option FileState :=
  lookupA idx path

/-- Embedding of `Manager.scanLocalFiles`: walk the local tree, skipping any
entry whose relative path starts with the string `.youlab-sync`, any
ignored entry, and any binary-classified file; record hash, size, mtime with
source `local` and a zero `synced_at`. -/
def scanLocalFiles (env : Env) (fs : LocalFS) : List (String × FileState) :=
  fs.filterMap fun e =>
    if strStartsWith e.1 ".youlab-sync" then none
    else if shouldIgnore env.ignorePatterns e.1 then none
    else if isBinaryFile e.2.content then none
    else
      some (e.1,
        { path := e.1, hash := env.hashFn e.2.content,
          size := (e.2.content.length : Int), modified := e.2.modified,
          source := "local", syncedAt := 0 })

/-- Embedding of `Manager.uploadFile`: read the file (an unreadable file is
an error return with no call and no index change), skip empty and binary
content silently, otherwise PutFile and record the server-echoed hash and
size with the local mtime under source `local`. The server model stores the
content with its own timestamp and echoes metadata whose hash is the hash of
the stored content (transport contract §4.5). -/
def uploadFile (env : Env) (st : SyncState) (relPath : String) :
    SyncState × List RemoteMutation :=
  match lookupA st.localFS relPath with
  | none => (st, [])
  | some lf =>
    if lf.content.length = 0 then (st, [])
    else if isBinaryFile lf.content then (st, [])
    else
      ({ st with
          remote := insertA st.remote relPath
            { content := lf.content, modified := env.serverNow },
          index := updateIndex st.index relPath (env.hashFn lf.content)
            (lf.content.length : Int) lf.modified "local" env.now },
       [RemoteMutation.put relPath lf.content])

/-- Embedding of `Manager.deleteLocalFile` in the fault-free filesystem
model: `os.Remove` (a not-exist error is swallowed) then remove the index
entry. -/
def deleteLocalFile (st : SyncState) (relPath : String) :
    SyncState × List RemoteMutation :=
  ({ st with localFS := eraseA st.localFS relPath,
             index := removeFromIndex st.index relPath }, [])

/-- Embedding of `Manager.deleteRemoteFile`: DeleteFile (the server accepts
deletion of an absent file) then remove the index entry. -/
def deleteRemoteFile (st : SyncState) (relPath : String) :
    SyncState × List RemoteMutation :=
  ({ st with remote := eraseA st.remote relPath,
             index := removeFromIndex st.index relPath }, [RemoteMutation.delete relPath])

/-- Embedding of `Manager.downloadFile`: GetFile; a not-found result (nil
content) leads to `deleteLocalFile`; otherwise write the content, set the
local mtime to the remote one unless that is zero (`os.Chtimes` guarded by
`IsZero`), and record the metadata under source `remote`. -/
def downloadFile (env : Env) (st : SyncState) (relPath : String) :
    SyncState × List RemoteMutation :=
  match lookupA st.remote relPath with
  | none => deleteLocalFile st relPath
  | some rf =>
    let meta : FileMetadata :=
      { path := relPath, hash := env.hashFn rf.content,
        size := (rf.content.length : Int), modified := rf.modified }
    let mtime := if meta.modified = 0 then env.fsNow else meta.modified
    ({ st with
        localFS := insertA st.localFS relPath
          { content := rf.content, modified := mtime },
        index := updateIndex st.index relPath meta.hash meta.size
          meta.modified "remote" env.now },
     [])

/-- Embedding of `Manager.syncFile`: the per-path reconciliation decision
over remote metadata, local scanned state, and indexed state, dispatching to
the action helpers exactly as the Go switch does. -/
def syncFile (env : Env) (st : SyncState) (path : String)
    (remote : Option FileMetadata) (localState : Option FileState)
    (indexed : Option FileState) : SyncState × List RemoteMutation :=
  match remote, localState with
  | some r, some l =>
    if l.hash = r.hash then
      ({ st with index := updateIndex st.index path l.hash l.size l.modified
                  "both" env.now }, [])
    else if l.modified > r.modified then uploadFile env st path
    else if r.modified > l.modified then downloadFile env st path
    else uploadFile env st path
  | some _, none =>
    if indexed.isSome then deleteRemoteFile st path
    else downloadFile env st path
  | none, some _ =>
    if indexed.isSome then deleteLocalFile st path
    else uploadFile env st path
  | none, none =>
    ({ st with index := removeFromIndex st.index path }, [])

/-- Server model of `Client.ListFiles`: the snapshot reports, for each
stored file, metadata whose hash is the hash of the stored content. -/
def listFiles (env : Env) (remote : RemoteFS) : List (String × FileMetadata) :=
  remote.map fun e =>
    (e.1, { path := e.1, hash := env.hashFn e.2.content,
            size := (e.2.content.length : Int), modified := e.2.modified })

/-- The per-path loop body of `Manager.FullSync`: decisions read the remote
and local snapshots taken before the loop, while the indexed state is read
live, and per-path results thread the state and accumulate mutations. -/
def syncPaths (env : Env) (remoteSnap : List (String × FileMetadata))
    (localSnap : List (String × FileState)) :
    List String → SyncState → SyncState × List RemoteMutation
  | [], st => (st, [])
  | p :: rest, st =>
    let step := syncFile env st p (lookupA remoteSnap p) (lookupA localSnap p)
      (getIndexedState st.index p)
    let next := syncPaths env remoteSnap localSnap rest step.1
    (next.1, step.2 ++ next.2)

/-- The union of remote and local path sets, remote keys first (the Go map
iteration order is unspecified; the claims proved here do not depend on it). -/
def allPaths (remoteSnap : List (String × FileMetadata))
    (localSnap : List (String × FileState)) : List String :=
  remoteSnap.map (fun e => e.1) ++
    (localSnap.map (fun e => e.1)).filter
      (fun p => !(remoteSnap.map (fun e => e.1)).contains p)

/-- Embedding of `Manager.FullSync`: list remote files, scan local files,
and run `syncFile` over the union of paths. (The trailing `last_sync` stamp
and index save do not touch the three state components modelled here.) -/
def fullSync (env : Env) (st : SyncState) : SyncState × List RemoteMutation :=
  let remoteSnap := listFiles env st.remote
  let localSnap := scanLocalFiles env st.localFS
  syncPaths env remoteSnap localSnap (allPaths remoteSnap localSnap) st

/-- Watcher event operations. -/
inductive Operation where
  | create
  | write
  | remove
  | rename
deriving Repr, DecidableEq

/-- A debounced watcher event. -/
structure Event where
  path : String
  operation : Operation
  time : Int
deriving Repr, DecidableEq

/-- Embedding of `Manager.HandleLocalChange`: create/write upload the path,
remove deletes it remotely, rename is a no-op. -/
def handleLocalChange (env : Env) (st : SyncState) (event : Event) :
    SyncState × List RemoteMutation :=
  match event.operation with
  | Operation.create => uploadFile env st event.path
  | Operation.write => uploadFile env st event.path
  | Operation.remove => deleteRemoteFile st event.path
  | Operation.rename => (st, [])

/-- The ignore list of `config.DefaultConfig` (part_004). -/
def defaultIgnorePatterns : List String :=
  [".git", ".DS_Store", "*.tmp", "*.temp", "*.swp", "*.swo",
   "node_modules", "__pycache__", ".pytest_cache", "*.log",
   "Thumbs.db", "desktop.ini"]

/-- Debouncer model of `Watcher.debounceEvent` for a single path's slot of
the `pendingEvents` map. State is the pending record: the stored event and
its timer deadline. Each raw event stops the existing timer (if its deadline
has already passed, the timer fired and its event was emitted first),
creates a fresh pending record holding the NEW event, and arms its timer
`debounce` after the raw event's time; the trailing timer fires at its
deadline. Returns the emitted events with their emission times. -/
def debounceRun (debounce : Int) :
    List Event → Option (Event × Int) → List (Event × Int)
  | [], pending =>
    (match pending with
     | some pe => [pe]
     | none => [])
  | raw :: rest, pending =>
    let fired : List (Event × Int) :=
      match pending with
      | some (pe, deadline) => if deadline ≤ raw.time then [(pe, deadline)] else []
      | none => []
    fired ++ debounceRun debounce rest (some (raw, raw.time + debounce))

/-- Observable watcher state for `Watcher.Stop`: which channels are closed,
the pending debounce map, and whether the fsnotify subscription is
released. -/
structure WatcherState where
  stopClosed : Bool
  doneClosed : Bool
  pendingTimers : List (String × Event)
  eventsClosed : Bool
  errorsClosed : Bool
  fsWatcherClosed : Bool
deriving Repr, DecidableEq

/-- Go `close(ch)`: closing an already-closed channel is a runtime fault
(panic). -/
def closeChan (alreadyClosed : Bool) : Except String Bool :=
  if alreadyClosed then Except.error "close of closed channel" else Except.ok true

/-- Embedding of `Watcher.Stop`: close `stopCh`, wait for `processEvents`
to finish, stop every pending timer and drop the map, close the events and
errors channels, release the fsnotify watcher. Each `close` faults if that
channel is already closed. -/
def stop (w : WatcherState) : Except String WatcherState := do
  let sc ← closeChan w.stopClosed
  let ec ← closeChan w.eventsClosed
  let rc ← closeChan w.errorsClosed
  Except.ok { stopClosed := sc, doneClosed := true, pendingTimers := [],
              eventsClosed := ec, errorsClosed := rc, fsWatcherClosed := true }

/-- Outcome classes of `os.Remove` as `Manager.deleteLocalFile` inspects
them: no error, a not-exist error, or any other error. -/
inductive OsError where
  | notExist
  | other
deriving Repr, DecidableEq

/-- Control flow of `Manager.deleteLocalFile` over the outcome of
`os.Remove`: an error other than not-exist is returned with the index
untouched; otherwise (success or not-exist) the index entry is removed and
the call succeeds. -/
def deleteLocalFileSteps (removeResult : Option OsError) (idx : Index)
    (relPath : String) : Except OsError Index :=
  match removeResult with
  | some e => if e = OsError.notExist then Except.ok (removeFromIndex idx relPath)
              else Except.error e
  | none => Except.ok (removeFromIndex idx relPath)

/-- An HTTP response as `Client.GetFile` inspects it: status code, body
bytes, the `X-File-Hash` header, and the `X-File-Modified` header already
parsed to a timestamp (`none` when absent or unparsable). -/
structure HttpResponse where
  status : Nat
  body : Bytes
  hashHeader : String
  modifiedHeader : Option Int
deriving Repr, DecidableEq

/-- Embedding of `Client.GetFile`'s response handling: 404 yields the
distinguished not-found result (`ok none`, i.e. nil content, nil metadata,
nil error); any other non-200 status is an error; 200 yields the body and
metadata assembled from the headers with size set to the body length. -/
def getFileResult (path : String) (resp : HttpResponse) :
    Except String (Option (Bytes × FileMetadata)) :=
  if resp.status = 404 then Except.ok none
  else if resp.status ≠ 200 then Except.error "unexpected status"
  else
    let hash := if resp.hashHeader ≠ "" then resp.hashHeader else ""
    let modified :=
      match resp.modifiedHeader with
      | some t => t
      | none => 0
    Except.ok (some (resp.body,
      { path := path, hash := hash, size := (resp.body.length : Int),
        modified := modified }))

/-- Filesystem operations relevant to persisting the index. -/
inductive FsOp where
  | write (path : String) (data : String)
  | rename (src : String) (dst : String)
deriving Repr, DecidableEq

/-- Whether a filesystem operation is a rename. -/
def FsOp.isRename : FsOp → Bool
  | FsOp.rename _ _ => true
  | FsOp.write _ _ => false

/-- Trace of filesystem operations performed by `Manager.saveIndex`: the Go
body marshals the index under a read lock and then issues a single
`os.WriteFile(m.indexPath, data, 0644)` — nothing else touches the disk. -/
def saveIndexOps (indexPath : String) (serialized : String) : List FsOp :=
  [FsOp.write indexPath serialized]

/-- C2 (counterevidence): with the default ignore patterns the watcher's
filter does NOT ignore `.youlab-sync/index.json` — so a raw filesystem event
on the index file survives `handleFSEvent`'s ignore check and is debounced
and emitted — the local scanner DOES exclude that very path, and the event
handler issues a PutFile for it, uploading the daemon's own index file. -/
theorem watcher_admits_reserved_dir_event :
    shouldIgnore defaultIgnorePatterns ".youlab-sync/index.json" = false ∧
    lookupA (scanLocalFiles ⟨fun _ => "h", defaultIgnorePatterns, 0, 0, 0⟩
        [(".youlab-sync/index.json", { content := [104, 105], modified := 3 })])
      ".youlab-sync/index.json" = none ∧
    (handleLocalChange ⟨fun _ => "h", defaultIgnorePatterns, 0, 0, 0⟩
        ⟨[], [(".youlab-sync/index.json", { content := [104, 105], modified := 3 })], []⟩
        { path := ".youlab-sync/index.json", operation := Operation.write, time := 9 }).2 =
      [RemoteMutation.put ".youlab-sync/index.json" [104, 105]] :=
  ⟨by decide, by decide, by decide⟩

/-- C3 (counterexample): a not-found GetFile on a path the index does not
know, while the local file exists, is not a no-op — `downloadFile` deletes
the local file unconditionally. Here the index is empty yet the local file
`a.txt` is removed, so the resulting state differs from the claim's
predicted unchanged state. -/
theorem getFile_notFound_deletes_unindexed_local :
    lookupA ([] : Index) "a.txt" = none ∧
    (downloadFile ⟨fun _ => "h", [], 0, 0, 0⟩
        ⟨[], [("a.txt", { content := [104], modified := 3 })], []⟩ "a.txt").1.localFS = [] ∧
    (downloadFile ⟨fun _ => "h", [], 0, 0, 0⟩
        ⟨[], [("a.txt", { content := [104], modified := 3 })], []⟩ "a.txt").1 ≠
      ⟨[], [("a.txt", { content := [104], modified := 3 })], []⟩ :=
  ⟨by decide, by decide, by decide⟩

/-- C3 (amended): GetFile yields the distinguished not-found result on HTTP
404, and the reconciler interprets that result as the file no longer
existing remotely by always invoking local deletion: the local file is
removed if present (a not-exist error is swallowed) and the index entry is
removed if present, regardless of whether the index knew about the path; no
remote mutation is issued. -/
theorem getFile_notFound_behavior :
    (∀ (path : String) (resp : HttpResponse), resp.status = 404 →
        getFileResult path resp = Except.ok none) ∧
    (∀ (env : Env) (st : SyncState) (relPath : String),
        lookupA st.remote relPath = none →
        downloadFile env st relPath =
          ({ st with localFS := eraseA st.localFS relPath,
                     index := removeFromIndex st.index relPath }, [])) := by
  constructor
  · intro p resp h
    simp [getFileResult, h]
  · intro env st p h
    simp [downloadFile, h, deleteLocalFile]

/-- Witness for `getFileResult_notFound_behavior` at concrete inputs: a 404
response and a state whose remote lacks the path. -/
theorem getFile_notFound_behavior_witness :
    getFileResult "a.txt"
        { status := 404, body := [], hashHeader := "", modifiedHeader := none } =
      Except.ok none ∧
    downloadFile ⟨fun _ => "h", [], 0, 0, 0⟩
        ⟨[], [("a.txt", { content := [104], modified := 3 })], []⟩ "a.txt" =
      ({ remote := [], localFS := [], index := [] }, []) := by
  constructor
  · exact getFile_notFound_behavior.1 "a.txt"
      { status := 404, body := [], hashHeader := "", modifiedHeader := none } (by decide)
  · have h := getFile_notFound_behavior.2 ⟨fun _ => "h", [], 0, 0, 0⟩
      ⟨[], [("a.txt", { content := [104], modified := 3 })], []⟩ "a.txt" (by decide)
    simpa using h

/-- C4 (counterexample): the save trace at a concrete index path and payload
is a single direct write to the index file itself — there is no write to a
temporary file and no rename anywhere in the trace. -/
theorem saveIndex_writes_directly :
    saveIndexOps ".youlab-sync/index.json" "{}" =
      [FsOp.write ".youlab-sync/index.json" "{}"] ∧
    (saveIndexOps ".youlab-sync/index.json" "{}").all
      (fun op => ! op.isRename) = true :=
  ⟨rfl, rfl⟩

/-- C4 (amended): Save serializes the index and writes the bytes directly to
the index file with a single WriteFile call; no temporary file is written
and no rename is performed, so the prior on-disk state is not protected
against a crash mid-write. -/
theorem saveIndex_single_direct_write :
    ∀ (indexPath serialized : String),
      saveIndexOps indexPath serialized = [FsOp.write indexPath serialized] ∧
      (saveIndexOps indexPath serialized).all (fun op => ! op.isRename) = true :=
  fun _ _ => ⟨rfl, rfl⟩

/-- C7 (code bug): on a quiescent system whose remote workspace holds a
single binary file `a.bin` (bytes 0,1,2) with an empty local tree and empty
index, the first full sync issues no remote mutation (it downloads the
file), but the second full sync issues DeleteFile("a.bin"): the local scan
classifies the downloaded copy as binary and omits it, so the reconciler
sees remote-present/local-absent/index-present and deletes the user's
remote file. -/
theorem fullSync_second_pass_mutates :
    (fullSync ⟨fun _ => "h", [], 0, 0, 0⟩
        ⟨[("a.bin", { content := [0, 1, 2], modified := 5 })], [], []⟩).2 = [] ∧
    (fullSync ⟨fun _ => "h", [], 0, 0, 0⟩
        (fullSync ⟨fun _ => "h", [], 0, 0, 0⟩
          ⟨[("a.bin", { content := [0, 1, 2], modified := 5 })], [], []⟩).1).2 =
      [RemoteMutation.delete "a.bin"] :=
  ⟨by decide, by decide⟩

/-- C8 (counterexample): stopping a fresh watcher succeeds and yields the
fully-stopped state, but calling Stop again on that state faults with a
close-of-closed-channel panic instead of completing without fault. -/
theorem stop_twice_faults :
    stop { stopClosed := false, doneClosed := false, pendingTimers := [],
           eventsClosed := false, errorsClosed := false, fsWatcherClosed := false } =
      Except.ok { stopClosed := true, doneClosed := true, pendingTimers := [],
                  eventsClosed := true, errorsClosed := true, fsWatcherClosed := true } ∧
    stop { stopClosed := true, doneClosed := true, pendingTimers := [],
           eventsClosed := true, errorsClosed := true, fsWatcherClosed := true } =
      Except.error "close of closed channel" :=
  ⟨rfl, rfl⟩

/-- C8 (amended): a first Stop on a not-yet-stopped watcher cancels all
pending debounce timers, closes the event and error channels and releases
the subscription; but Stop is not idempotent — any further call faults
(close of the already-closed stop channel). -/
theorem stop_once_ok_not_idempotent :
    (∀ w : WatcherState, w.stopClosed = false → w.eventsClosed = false →
        w.errorsClosed = false →
        stop w = Except.ok { stopClosed := true, doneClosed := true,
                             pendingTimers := [], eventsClosed := true,
                             errorsClosed := true, fsWatcherClosed := true }) ∧
    (∀ w : WatcherState, w.stopClosed = true →
        stop w = Except.error "close of closed channel") := by
  constructor
  · intro w h1 h2 h3
    simp only [stop, closeChan, h1, h2, h3, if_neg Bool.false_ne_true]
    rfl
  · intro w h
    simp only [stop, closeChan, h, if_pos rfl]
    rfl

/-- Witness for `stop_once_ok_not_idempotent` at concrete watcher states. -/
theorem stop_once_ok_not_idempotent_witness :
    stop { stopClosed := false, doneClosed := false,
           pendingTimers := [("a.txt", { path := "a.txt", operation := Operation.write, time := 1 })],
           eventsClosed := false, errorsClosed := false, fsWatcherClosed := false } =
      Except.ok { stopClosed := true, doneClosed := true, pendingTimers := [],
                  eventsClosed := true, errorsClosed := true, fsWatcherClosed := true } ∧
    stop { stopClosed := true, doneClosed := true, pendingTimers := [],
           eventsClosed := true, errorsClosed := true, fsWatcherClosed := true } =
      Except.error "close of closed channel" :=
  ⟨stop_once_ok_not_idempotent.1 _ rfl rfl rfl,
   stop_once_ok_not_idempotent.2 _ rfl⟩

/-- C9: `deleteLocalFile` treats a not-exist error from `os.Remove` as
success (the error is not propagated), and every successful outcome — any
`os.Remove` result other than a non-not-exist error — removes the path's
index entry. -/
theorem deleteLocal_swallows_notExist :
    (∀ (idx : Index) (relPath : String),
        deleteLocalFileSteps (some OsError.notExist) idx relPath =
          Except.ok (removeFromIndex idx relPath)) ∧
    (∀ (removeResult : Option OsError) (idx : Index) (relPath : String)
        (result : Index),
        deleteLocalFileSteps removeResult idx relPath = Except.ok result →
        result = removeFromIndex idx relPath) := by
  constructor
  · intro idx p
    rfl
  · intro r idx p result h
    cases r with
    | none =>
      simpa [deleteLocalFileSteps] using h.symm
    | some e =>
      cases e with
      | notExist => simpa [deleteLocalFileSteps] using h.symm
      | other => simp [deleteLocalFileSteps] at h

/-- Witness for `deleteLocal_swallows_notExist` at concrete inputs. -/
theorem deleteLocal_swallows_notExist_witness :
    deleteLocalFileSteps (some OsError.notExist) [] "a.txt" =
      Except.ok (removeFromIndex [] "a.txt") ∧
    ([] : Index) = removeFromIndex [] "a.txt" :=
  ⟨deleteLocal_swallows_notExist.1 [] "a.txt",
   deleteLocal_swallows_notExist.2 none [] "a.txt" [] rfl⟩

/-- C1: `syncFile` realises the nine reachable rows of the decision table.
Rows 1–4 (both present): equal hashes give no remote call and an index
entry built from the local state with source `both`; a strictly newer local
mtime, or equal mtimes with differing hashes (local-preference tiebreak),
dispatch to `uploadFile`; a strictly newer remote mtime dispatches to
`downloadFile`. Rows 5–6 (remote only): an index entry gives a remote
delete plus index removal, no entry gives a download. Rows 7–8 (local
only): an index entry gives a local delete plus index removal, no entry
gives an upload. Row 9 (both absent) removes the index entry. The last two
conjuncts pin down the transfers' resulting index entries: an executed
upload issues PutFile and records the server-echoed hash and size with the
local mtime under source `local`; an executed download records the GetFile
metadata under source `remote`. -/
theorem syncFile_matches_decision_table :
    (∀ (env : Env) (st : SyncState) (p : String) (r : FileMetadata)
        (l : FileState) (i : Option FileState), l.hash = r.hash →
        syncFile env st p (some r) (some l) i =
          ({ st with index := updateIndex st.index p l.hash l.size l.modified
                      "both" env.now }, [])) ∧
    (∀ (env : Env) (st : SyncState) (p : String) (r : FileMetadata)
        (l : FileState) (i : Option FileState),
        l.hash ≠ r.hash → l.modified > r.modified →
        syncFile env st p (some r) (some l) i = uploadFile env st p) ∧
    (∀ (env : Env) (st : SyncState) (p : String) (r : FileMetadata)
        (l : FileState) (i : Option FileState),
        l.hash ≠ r.hash → r.modified > l.modified →
        syncFile env st p (some r) (some l) i = downloadFile env st p) ∧
    (∀ (env : Env) (st : SyncState) (p : String) (r : FileMetadata)
        (l : FileState) (i : Option FileState),
        l.hash ≠ r.hash → l.modified = r.modified →
        syncFile env st p (some r) (some l) i = uploadFile env st p) ∧
    (∀ (env : Env) (st : SyncState) (p : String) (r : FileMetadata)
        (i : Option FileState), i.isSome = true →
        syncFile env st p (some r) none i =
          ({ st with remote := eraseA st.remote p,
                     index := removeFromIndex st.index p },
           [RemoteMutation.delete p])) ∧
    (∀ (env : Env) (st : SyncState) (p : String) (r : FileMetadata),
        syncFile env st p (some r) none none = downloadFile env st p) ∧
    (∀ (env : Env) (st : SyncState) (p : String) (l : FileState)
        (i : Option FileState), i.isSome = true →
        syncFile env st p none (some l) i =
          ({ st with localFS := eraseA st.localFS p,
                     index := removeFromIndex st.index p }, [])) ∧
    (∀ (env : Env) (st : SyncState) (p : String) (l : FileState),
        syncFile env st p none (some l) none = uploadFile env st p) ∧
    (∀ (env : Env) (st : SyncState) (p : String) (i : Option FileState),
        syncFile env st p none none i =
          ({ st with index := removeFromIndex st.index p }, [])) ∧
    (∀ (env : Env) (st : SyncState) (p : String) (lf : LocalFile),
        lookupA st.localFS p = some lf → lf.content.length ≠ 0 →
        isBinaryFile lf.content = false →
        uploadFile env st p =
          ({ st with remote := insertA st.remote p
                       { content := lf.content, modified := env.serverNow },
                     index := updateIndex st.index p (env.hashFn lf.content)
                       (lf.content.length : Int) lf.modified "local" env.now },
           [RemoteMutation.put p lf.content])) ∧
    (∀ (env : Env) (st : SyncState) (p : String) (rf : RemoteFile),
        lookupA st.remote p = some rf →
        downloadFile env st p =
          ({ st with localFS := insertA st.localFS p
                       { content := rf.content,
                         modified := if rf.modified = 0 then env.fsNow
                                     else rf.modified },
                     index := updateIndex st.index p (env.hashFn rf.content)
                       (rf.content.length : Int) rf.modified "remote" env.now },
           [])) := by
  refine ⟨?_, ?_, ?_, ?_, ?_, ?_, ?_, ?_, ?_, ?_, ?_⟩
  · intro env st p r l i h
    simp [syncFile, h]
  · intro env st p r l i hneq hgt
    simp [syncFile, hneq, hgt]
  · intro env st p r l i hneq hgt
    have hnl : ¬ (l.modified > r.modified) := by omega
    simp [syncFile, hneq, hnl, hgt]
  · intro env st p r l i hneq heq
    have h1 : ¬ (l.modified > r.modified) := by omega
    have h2 : ¬ (r.modified > l.modified) := by omega
    simp [syncFile, hneq, h1, h2]
  · intro env st p r i hi
    simp [syncFile, hi, deleteRemoteFile]
  · intro env st p r
    simp [syncFile, downloadFile]
  · intro env st p l i hi
    simp [syncFile, hi, deleteLocalFile]
  · intro env st p l
    simp [syncFile]
  · intro env st p i
    simp [syncFile]
  · intro env st p lf hl h0 hbin
    simp [uploadFile, hl, h0, hbin]
  · intro env st p rf hr
    simp [downloadFile, hr]

/-- Witness for `syncFile_matches_decision_table`: each of the nine rows and
the two transfer characterisations instantiated at concrete inputs. -/
theorem syncFile_matches_decision_table_witness :
    syncFile ⟨fun _ => "h", [], 7, 8, 9⟩ ⟨[], [], []⟩ "a.txt"
        (some ⟨"a.txt", "h1", 1, 10⟩) (some ⟨"a.txt", "h1", 1, 12, "local", 0⟩) none =
      (⟨[], [], [("a.txt", ⟨"a.txt", "h1", 1, 12, "both", 7⟩)]⟩, []) ∧
    syncFile ⟨fun _ => "h", [], 7, 8, 9⟩ ⟨[], [], []⟩ "a.txt"
        (some ⟨"a.txt", "h1", 1, 10⟩) (some ⟨"a.txt", "h2", 1, 12, "local", 0⟩) none =
      uploadFile ⟨fun _ => "h", [], 7, 8, 9⟩ ⟨[], [], []⟩ "a.txt" ∧
    syncFile ⟨fun _ => "h", [], 7, 8, 9⟩ ⟨[], [], []⟩ "a.txt"
        (some ⟨"a.txt", "h1", 1, 10⟩) (some ⟨"a.txt", "h2", 1, 5, "local", 0⟩) none =
      downloadFile ⟨fun _ => "h", [], 7, 8, 9⟩ ⟨[], [], []⟩ "a.txt" ∧
    syncFile ⟨fun _ => "h", [], 7, 8, 9⟩ ⟨[], [], []⟩ "a.txt"
        (some ⟨"a.txt", "h1", 1, 10⟩) (some ⟨"a.txt", "h2", 1, 10, "local", 0⟩) none =
      uploadFile ⟨fun _ => "h", [], 7, 8, 9⟩ ⟨[], [], []⟩ "a.txt" ∧
    syncFile ⟨fun _ => "h", [], 7, 8, 9⟩ ⟨[], [], []⟩ "a.txt"
        (some ⟨"a.txt", "h1", 1, 10⟩) none (some ⟨"a.txt", "h1", 1, 10, "both", 0⟩) =
      (⟨[], [], []⟩, [RemoteMutation.delete "a.txt"]) ∧
    syncFile ⟨fun _ => "h", [], 7, 8, 9⟩ ⟨[], [], []⟩ "a.txt"
        (some ⟨"a.txt", "h1", 1, 10⟩) none none =
      downloadFile ⟨fun _ => "h", [], 7, 8, 9⟩ ⟨[], [], []⟩ "a.txt" ∧
    syncFile ⟨fun _ => "h", [], 7, 8, 9⟩ ⟨[], [], []⟩ "a.txt"
        none (some ⟨"a.txt", "h2", 1, 12, "local", 0⟩) (some ⟨"a.txt", "h1", 1, 10, "both", 0⟩) =
      (⟨[], [], []⟩, []) ∧
    syncFile ⟨fun _ => "h", [], 7, 8, 9⟩ ⟨[], [], []⟩ "a.txt"
        none (some ⟨"a.txt", "h2", 1, 12, "local", 0⟩) none =
      uploadFile ⟨fun _ => "h", [], 7, 8, 9⟩ ⟨[], [], []⟩ "a.txt" ∧
    syncFile ⟨fun _ => "h", [], 7, 8, 9⟩ ⟨[], [], []⟩ "a.txt"
        none none (some ⟨"a.txt", "h1", 1, 10, "both", 0⟩) =
      (⟨[], [], []⟩, []) ∧
    uploadFile ⟨fun _ => "h", [], 7, 8, 9⟩ ⟨[], [("a.txt", ⟨[104], 12⟩)], []⟩ "a.txt" =
      (⟨[("a.txt", ⟨[104], 8⟩)], [("a.txt", ⟨[104], 12⟩)],
        [("a.txt", ⟨"a.txt", "h", 1, 12, "local", 7⟩)]⟩,
       [RemoteMutation.put "a.txt" [104]]) ∧
    downloadFile ⟨fun _ => "h", [], 7, 8, 9⟩ ⟨[("a.txt", ⟨[104], 10⟩)], [], []⟩ "a.txt" =
      (⟨[("a.txt", ⟨[104], 10⟩)], [("a.txt", ⟨[104], 10⟩)],
        [("a.txt", ⟨"a.txt", "h", 1, 10, "remote", 7⟩)]⟩, []) := by
  refine ⟨?_, ?_, ?_, ?_, ?_, ?_, ?_, ?_, ?_, ?_, ?_⟩
  · exact syncFile_matches_decision_table.1 _ _ _ _ _ _ (by decide)
  · exact syncFile_matches_decision_table.2.1 _ _ _ _ _ _ (by decide) (by decide)
  · exact syncFile_matches_decision_table.2.2.1 _ _ _ _ _ _ (by decide) (by decide)
  · exact syncFile_matches_decision_table.2.2.2.1 _ _ _ _ _ _ (by decide) (by decide)
  · exact syncFile_matches_decision_table.2.2.2.2.1 _ _ _ _ _ (by decide)
  · exact syncFile_matches_decision_table.2.2.2.2.2.1 _ _ _ _
  · exact syncFile_matches_decision_table.2.2.2.2.2.2.1 _ _ _ _ _ (by decide)
  · exact syncFile_matches_decision_table.2.2.2.2.2.2.2.1 _ _ _ _
  · exact syncFile_matches_decision_table.2.2.2.2.2.2.2.2.1 _ _ _ _
  · exact syncFile_matches_decision_table.2.2.2.2.2.2.2.2.2.1 ⟨fun _ => "h", [], 7, 8, 9⟩
      ⟨[], [("a.txt", ⟨[104], 12⟩)], []⟩ "a.txt" ⟨[104], 12⟩
      (by decide) (by decide) (by decide)
  · exact syncFile_matches_decision_table.2.2.2.2.2.2.2.2.2.2 ⟨fun _ => "h", [], 7, 8, 9⟩
      ⟨[("a.txt", ⟨[104], 10⟩)], [], []⟩ "a.txt" ⟨[104], 10⟩ (by decide)

/-- Helper: the total last element of a nonempty list equals `getLastD` of
its tail with the head as default. -/
theorem getLast_cons_eq_getLastD : ∀ (r : Event) (rest : List Event)
    (h : r :: rest ≠ []), (r :: rest).getLast h = rest.getLastD r := by
  intro r rest
  induction rest generalizing r with
  | nil => intro h; rfl
  | cons b l ih =>
    intro h
    rw [List.getLast_cons (by simp), List.getLastD_cons]
    exact ih b (by simp)

/-- Helper: while every successive raw event arrives within `d` of the
pending deadline's origin, no timer fires early; the run ends with exactly
the final raw event, emitted at its own time plus `d`. -/
theorem debounceRun_chain (d : Int) :
    ∀ (raws : List Event) (pe : Event),
      List.Chain' (fun a b => b.time - a.time < d) (pe :: raws) →
      debounceRun d raws (some (pe, pe.time + d)) =
        [(raws.getLastD pe, (raws.getLastD pe).time + d)] := by
  intro raws
  induction raws with
  | nil =>
    intro pe _
    simp [debounceRun]
  | cons r rest ih =>
    intro pe hchain
    rw [List.chain'_cons] at hchain
    obtain ⟨hpr, hrest⟩ := hchain
    have hfire : ¬ (pe.time + d ≤ r.time) := by omega
    simp only [debounceRun, hfire, if_false, List.nil_append, List.getLastD_cons]
    exact ih r hrest

/-- C5: for any finite nonempty sequence of raw events on a single path
whose inter-arrival times are all below the debounce interval, the
debouncer emits exactly one event (so at most one), and it is the latest
raw event of the sequence — its operation and timestamp — emitted exactly
one debounce interval after that latest raw event (so no earlier). -/
theorem debounce_emits_latest_once (d : Int) (raws : List Event) (p : String)
    (hne : raws ≠ [])
    (hpath : ∀ e ∈ raws, e.path = p)
    (hgap : List.Chain' (fun a b => b.time - a.time < d) raws) :
    debounceRun d raws none =
      [(raws.getLast hne, (raws.getLast hne).time + d)] ∧
    (raws.getLast hne).path = p := by
  constructor
  · cases raws with
    | nil => exact absurd rfl hne
    | cons r rest =>
      have h1 : debounceRun d (r :: rest) none =
          debounceRun d rest (some (r, r.time + d)) := by
        simp [debounceRun]
      rw [h1, debounceRun_chain d rest r hgap, getLast_cons_eq_getLastD]
  · exact hpath _ (List.getLast_mem hne)

/-- Witness for `debounce_emits_latest_once`: a create at time 0 followed by
a write at time 50 with a 100-unit debounce yields one event — the write —
emitted at time 150. -/
theorem debounce_emits_latest_once_witness :
    debounceRun 100
        [{ path := "a.txt", operation := Operation.create, time := 0 },
         { path := "a.txt", operation := Operation.write, time := 50 }] none =
      [({ path := "a.txt", operation := Operation.write, time := 50 }, 150)] ∧
    Event.path { path := "a.txt", operation := Operation.write, time := 50 } = "a.txt" :=
  debounce_emits_latest_once 100
    [{ path := "a.txt", operation := Operation.create, time := 0 },
     { path := "a.txt", operation := Operation.write, time := 50 }] "a.txt"
    (by decide) (by decide) (List.chain'_pair.mpr (by decide))

/-- Helper: every entry the scanner produces has a relative path that does
not begin with `.youlab-sync`. -/
theorem mem_scanLocalFiles {env : Env} {fs : LocalFS} {p : String} {s : FileState}
    (h : (p, s) ∈ scanLocalFiles env fs) :
    strStartsWith p ".youlab-sync" = false := by
  simp only [scanLocalFiles, List.mem_filterMap] at h
  obtain ⟨e, _, hf⟩ := h
  by_cases h1 : strStartsWith e.1 ".youlab-sync"
  · simp [h1] at hf
  · by_cases h2 : shouldIgnore env.ignorePatterns e.1
    · simp [h1, h2] at hf
    · by_cases h3 : isBinaryFile e.2.content
      · simp [h1, h2, h3] at hf
      · simp [h1, h2, h3] at hf
        obtain ⟨he, _⟩ := hf
        rw [← he]
        exact Bool.eq_false_iff.mpr h1

/-- Helper: looking up any reserved-name path in the scanner output yields
nothing. -/
theorem lookupA_scan_reserved {env : Env} {fs : LocalFS} {p : String}
    (h : strStartsWith p ".youlab-sync" = true) :
    lookupA (scanLocalFiles env fs) p = none := by
  rw [lookupA, Option.map_eq_none', List.find?_eq_none]
  intro e he
  have hfalse : strStartsWith e.1 ".youlab-sync" = false :=
    @mem_scanLocalFiles env fs e.1 e.2 (by simpa using he)
  simp only [beq_iff_eq]
  intro hev
  rw [hev, h] at hfalse
  exact absurd hfalse (by simp)

/-- Helper: a PutFile issued by `uploadFile` carries the uploaded path. -/
theorem put_mem_uploadFile {env : Env} {st : SyncState} {p q : String} {c : Bytes}
    (h : RemoteMutation.put q c ∈ (uploadFile env st p).2) : q = p := by
  unfold uploadFile at h
  cases hl : lookupA st.localFS p with
  | none => rw [hl] at h; simp at h
  | some lf =>
    rw [hl] at h
    by_cases h0 : lf.content.length = 0
    · simp [h0] at h
    · by_cases hbin : isBinaryFile lf.content
      · simp [h0, hbin] at h
      · simp [h0, hbin] at h
        exact h.1

/-- Helper: `downloadFile` never issues a PutFile. -/
theorem put_not_mem_downloadFile {env : Env} {st : SyncState} {p q : String} {c : Bytes} :
    RemoteMutation.put q c ∉ (downloadFile env st p).2 := by
  unfold downloadFile
  cases hr : lookupA st.remote p with
  | none => simp [deleteLocalFile]
  | some rf => simp

/-- Helper: a PutFile issued by `syncFile` carries the processed path and
requires a scanned local state for that path. -/
theorem put_mem_syncFile {env : Env} {st : SyncState} {p q : String} {c : Bytes}
    {r : Option FileMetadata} {l : Option FileState} {i : Option FileState}
    (h : RemoteMutation.put q c ∈ (syncFile env st p r l i).2) :
    q = p ∧ l.isSome = true := by
  cases r with
  | none =>
    cases l with
    | none => simp [syncFile] at h
    | some lv =>
      refine ⟨?_, rfl⟩
      simp only [syncFile] at h
      by_cases hi : i.isSome
      · simp [hi, deleteLocalFile] at h
      · rw [if_neg (by simp [hi])] at h
        exact put_mem_uploadFile h
  | some rv =>
    cases l with
    | none =>
      exfalso
      simp only [syncFile] at h
      by_cases hi : i.isSome
      · simp [hi, deleteRemoteFile] at h
      · rw [if_neg (by simp [hi])] at h
        exact put_not_mem_downloadFile h
    | some lv =>
      refine ⟨?_, rfl⟩
      simp only [syncFile] at h
      by_cases heq : lv.hash = rv.hash
      · simp [heq] at h
      · rw [if_neg heq] at h
        by_cases hgt : lv.modified > rv.modified
        · rw [if_pos hgt] at h
          exact put_mem_uploadFile h
        · rw [if_neg hgt] at h
          by_cases hlt : rv.modified > lv.modified
          · rw [if_pos hlt] at h
            exact absurd h put_not_mem_downloadFile
          · rw [if_neg hlt] at h
            exact put_mem_uploadFile h

/-- Helper: any PutFile issued during the full-sync loop is for a path the
local scan reported. -/
theorem put_mem_syncPaths {env : Env} {remoteSnap : List (String × FileMetadata)}
    {localSnap : List (String × FileState)} {q : String} {c : Bytes} :
    ∀ {paths : List String} {st : SyncState},
      RemoteMutation.put q c ∈ (syncPaths env remoteSnap localSnap paths st).2 →
      (lookupA localSnap q).isSome = true := by
  intro paths
  induction paths with
  | nil => intro st h; simp [syncPaths] at h
  | cons p rest ih =>
    intro st h
    simp only [syncPaths, List.mem_append] at h
    rcases h with h | h
    · obtain ⟨hq, hsome⟩ := put_mem_syncFile h
      rw [hq]
      exact hsome
    · exact ih h

/-- C10: the scanner's exclusion is by string prefix on the relative path —
every path beginning with `.youlab-sync`, including a root-level file such
as `.youlab-sync-backup.txt`, is absent from scanner output and is never
uploaded by a full sync (no PutFile for it appears among the pass's remote
mutations). -/
theorem scanner_excludes_reserved_names :
    ∀ (env : Env) (st : SyncState) (p : String),
      strStartsWith p ".youlab-sync" = true →
      lookupA (scanLocalFiles env st.localFS) p = none ∧
      ∀ c : Bytes, RemoteMutation.put p c ∉ (fullSync env st).2 := by
  intro env st p h
  refine ⟨lookupA_scan_reserved h, ?_⟩
  intro c hmem
  have hsome := put_mem_syncPaths hmem
  rw [lookupA_scan_reserved h] at hsome
  simp at hsome

/-- Witness for `scanner_excludes_reserved_names` at the claim's example
path `.youlab-sync-backup.txt`, a root-level file outside the reserved
directory proper. -/
theorem scanner_excludes_reserved_names_witness :
    lookupA (scanLocalFiles ⟨fun _ => "h", [], 0, 0, 0⟩
        [(".youlab-sync-backup.txt", ⟨[104], 3⟩)]) ".youlab-sync-backup.txt" = none ∧
    RemoteMutation.put ".youlab-sync-backup.txt" [104] ∉
      (fullSync ⟨fun _ => "h", [], 0, 0, 0⟩
        ⟨[], [(".youlab-sync-backup.txt", ⟨[104], 3⟩)], []⟩).2 :=
  ⟨(scanner_excludes_reserved_names ⟨fun _ => "h", [], 0, 0, 0⟩
      ⟨[], [(".youlab-sync-backup.txt", ⟨[104], 3⟩)], []⟩
      ".youlab-sync-backup.txt" (by decide)).1,
   (scanner_excludes_reserved_names ⟨fun _ => "h", [], 0, 0, 0⟩
      ⟨[], [(".youlab-sync-backup.txt", ⟨[104], 3⟩)], []⟩
      ".youlab-sync-backup.txt" (by decide)).2 [104]⟩

/-- C6: the content classifier agrees, on every byte buffer, with the
specification's rules (empty is not binary; a NUL in the first 1024 bytes
is binary; otherwise binary exactly when the count of control bytes other
than 9, 10, 13 in the prefix exceeds 0.3 of the prefix length); and a file
whose current content is empty or binary-classified is never uploaded —
`uploadFile`, the only PutFile call site, returns with no remote call and
no state change. -/
theorem classifier_and_upload_exclusion :
    (∀ content : Bytes, isBinaryFile content = specIsBinary content) ∧
    (∀ (env : Env) (st : SyncState) (relPath : String) (lf : LocalFile),
        lookupA st.localFS relPath = some lf →
        (lf.content.length = 0 ∨ isBinaryFile lf.content = true) →
        uploadFile env st relPath = (st, [])) := by
  constructor
  · intro b
    by_cases hb : b.length = 0
    · simp [isBinaryFile, specIsBinary, hb]
    · have htake : b.take (min b.length 1024) = b.take 1024 := by
        rcases Nat.le_total b.length 1024 with h | h
        · rw [Nat.min_eq_left h, List.take_length, List.take_of_length_le h]
        · rw [Nat.min_eq_right h]
      have hlen : (b.take 1024).length = min b.length 1024 := by
        rw [List.length_take]
        omega
      simp [isBinaryFile, specIsBinary, hb, htake, hlen]
  · intro env st p lf hl hcond
    rcases hcond with h0 | hbin
    · simp [uploadFile, hl, h0]
    · by_cases h0 : lf.content.length = 0
      · simp [uploadFile, hl, h0]
      · simp [uploadFile, hl, h0, hbin]

/-- Witness for `classifier_and_upload_exclusion`: a NUL-carrying buffer and
an empty buffer, each present as a local file, produce no upload. -/
theorem classifier_and_upload_exclusion_witness :
    isBinaryFile [0, 1, 2] = specIsBinary [0, 1, 2] ∧
    uploadFile ⟨fun _ => "h", [], 0, 0, 0⟩
        ⟨[], [("a.bin", { content := [0, 1, 2], modified := 3 })], []⟩ "a.bin" =
      (⟨[], [("a.bin", { content := [0, 1, 2], modified := 3 })], []⟩, []) ∧
    uploadFile ⟨fun _ => "h", [], 0, 0, 0⟩
        ⟨[], [("e.txt", { content := [], modified := 3 })], []⟩ "e.txt" =
      (⟨[], [("e.txt", { content := [], modified := 3 })], []⟩, []) :=
  ⟨classifier_and_upload_exclusion.1 [0, 1, 2],
   classifier_and_upload_exclusion.2 ⟨fun _ => "h", [], 0, 0, 0⟩
     ⟨[], [("a.bin", { content := [0, 1, 2], modified := 3 })], []⟩ "a.bin"
     { content := [0, 1, 2], modified := 3 } (by decide) (Or.inr (by decide)),
   classifier_and_upload_exclusion.2 ⟨fun _ => "h", [], 0, 0, 0⟩
     ⟨[], [("e.txt", { content := [], modified := 3 })], []⟩ "e.txt"
     { content := [], modified := 3 } (by decide) (Or.inl (by decide))⟩

end YouLabSync
